import Mathlib

/-!
Shallow embedding of the core transaction pipeline of `src/app.py`
(budgeting app): the keyword rule classification engine
(`run_auto_categorization`), the statement text parser
(`process_chime_pdf`), the tabular ingestion pipeline
(`clean_bank_file`) and the insert-if-absent persistence step
(`save_to_neon`).

Modelling conventions, stated once here and referenced below:
* Python/pandas floats are modelled as exact decimal numbers `Dec`
  (an integer mantissa with a power-of-ten exponent, kept in canonical
  form): every amount flowing through the modelled code paths is a
  decimal literal, and no claim depends on binary rounding of floats.
* A missing cell (pandas `NaN`) is modelled by a dedicated `Cell.na`
  constructor; a cell holding text by `Cell.str`, a numeric cell by
  `Cell.num`.
* The external Postgres store is modelled as a list of records; its
  `ILIKE '%kw%'` filtered update is modelled as case-insensitive
  substring containment, exactly the collaborator interface the spec
  assigns to the store ("keyword-substring (case-insensitive) filtered
  update").
* `hashlib.md5(...).hexdigest()` is an external deterministic digest; no
  claim depends on anything beyond its determinism, so it is modelled as
  a deterministic injection of its input string.
-/

/-- Strip factors of ten from a decimal mantissa/exponent pair, so that
equal decimal values get equal representations. -/
def decNorm : ℤ → ℕ → ℤ × ℕ
  | m, 0 => (m, 0)
  | m, e + 1 => if m % 10 = 0 then decNorm (m / 10) e else (m, e + 1)

/-- An exact decimal number `mant / 10 ^ exp`, the model of the Python
floats these code paths produce (see the module comment). -/
structure Dec where
  mant : ℤ
  exp : ℕ
deriving Repr, DecidableEq

/-- Build a decimal in canonical form. -/
def Dec.make (m : ℤ) (e : ℕ) : Dec :=
  { mant := (decNorm m e).1, exp := (decNorm m e).2 }

/-- Negation of a decimal. -/
def Dec.negate (d : Dec) : Dec :=
  { mant := -d.mant, exp := d.exp }

/-- Exact subtraction of decimals (used by the Citi credit/debit
derivation). -/
def Dec.sub (a b : Dec) : Dec :=
  Dec.make (a.mant * (10 : ℤ) ^ b.exp - b.mant * (10 : ℤ) ^ a.exp) (a.exp + b.exp)

/-- A transaction record as stored in the `transactions` table, restricted
to the columns written by `save_to_neon` that any claim mentions
(`pending`, `merchant_name`, `manual_category`, `manual_bucket` are
constants or never read by the modelled code paths). `name` and `amount`
are nullable in the schema, hence `Option`. -/
@[ext]
structure Txn where
  transaction_id : String
  date : String
  name : Option String
  amount : Option Dec
  category : String
  bucket : String
  source : String
deriving Repr, DecidableEq

/-- A row of the `category_rules` table (`keyword`, `category`, `bucket`). -/
structure Rule where
  keyword : String
  category : String
  bucket : String
deriving Repr, DecidableEq

/-- Whether the character list `needle` starts the list `hay`. -/
def chLeads : List Char → List Char → Bool
  | [], _ => true
  | _ :: _, [] => false
  | a :: xs, b :: ys => a = b && chLeads xs ys

/-- Whether `needle` occurs contiguously inside `hay`. -/
def chContains (needle : List Char) : List Char → Bool
  | [] => needle.isEmpty
  | c :: rest => chLeads needle (c :: rest) || chContains needle rest

/-- Case-insensitive substring containment: the store-side meaning of
`name ILIKE '%keyword%'` in `run_auto_categorization` (app.py:76-81), per
the collaborator interface of the spec (keyword-substring,
case-insensitive). Case folding is per-character ASCII lowering,
matching the ASCII data the claims exercise. -/
def containsCI (hay needle : String) : Bool :=
  chContains (needle.data.map Char.toLower) (hay.data.map Char.toLower)

/-- The `WHERE name ILIKE :kw` part of the rule UPDATE applied to one
record: a NULL `name` never matches. -/
def nameMatches (r : Rule) (t : Txn) : Bool :=
  match t.name with
  | some n => containsCI n r.keyword
  | none => false

/-- One rule's `UPDATE transactions SET category = :cat, bucket = :bucket
WHERE name ILIKE :kw AND category = 'Uncategorized'` (app.py:76-81),
restricted to a single record. -/
def applyRule (r : Rule) (t : Txn) : Txn :=
  if t.category = "Uncategorized" ∧ nameMatches r t = true then
    { t with category := r.category, bucket := r.bucket }
  else t

/-- The effect of the full rule loop of `run_auto_categorization` on a
single record: rules are applied sequentially in list order. -/
def classifyTxn (rules : List Rule) (t : Txn) : Txn :=
  rules.foldl (fun acc r => applyRule r acc) t

/-- `run_auto_categorization` (app.py:69-82): for each rule in order, the
UPDATE rewrites every currently-Uncategorized matching record of the
store. An empty rule list returns the store unchanged (the early
`return` on `rules.empty`). -/
def run_auto_categorization (rules : List Rule) (store : List Txn) : List Txn :=
  rules.foldl (fun st r => st.map (applyRule r)) store

theorem applyRule_pos (r : Rule) (t : Txn)
    (h : t.category = "Uncategorized" ∧ nameMatches r t = true) :
    applyRule r t = { t with category := r.category, bucket := r.bucket } := by
  unfold applyRule
  rw [if_pos h]

theorem applyRule_neg (r : Rule) (t : Txn)
    (h : ¬(t.category = "Uncategorized" ∧ nameMatches r t = true)) :
    applyRule r t = t := by
  unfold applyRule
  rw [if_neg h]

theorem applyRule_of_ne (r : Rule) (t : Txn) (h : t.category ≠ "Uncategorized") :
    applyRule r t = t :=
  applyRule_neg r t (fun hc => h hc.1)

theorem classifyTxn_nil (t : Txn) : classifyTxn [] t = t := rfl

theorem classifyTxn_cons (r : Rule) (rs : List Rule) (t : Txn) :
    classifyTxn (r :: rs) t = classifyTxn rs (applyRule r t) := rfl

theorem classifyTxn_of_ne (rules : List Rule) (t : Txn)
    (h : t.category ≠ "Uncategorized") : classifyTxn rules t = t := by
  induction rules with
  | nil => rfl
  | cons r rs ih =>
      rw [classifyTxn_cons, applyRule_of_ne r t h, ih]

theorem applyRule_core (r : Rule) (t : Txn) :
    (applyRule r t).transaction_id = t.transaction_id ∧
    (applyRule r t).date = t.date ∧
    (applyRule r t).name = t.name ∧
    (applyRule r t).amount = t.amount ∧
    (applyRule r t).source = t.source := by
  unfold applyRule
  split <;> simp

theorem classifyTxn_core (rules : List Rule) (t : Txn) :
    (classifyTxn rules t).transaction_id = t.transaction_id ∧
    (classifyTxn rules t).date = t.date ∧
    (classifyTxn rules t).name = t.name ∧
    (classifyTxn rules t).amount = t.amount ∧
    (classifyTxn rules t).source = t.source := by
  induction rules generalizing t with
  | nil => simp [classifyTxn_nil]
  | cons r rs ih =>
      rw [classifyTxn_cons]
      have ha := applyRule_core r t
      have hi := ih (applyRule r t)
      exact ⟨hi.1.trans ha.1, (hi.2.1).trans ha.2.1, (hi.2.2.1).trans ha.2.2.1,
        (hi.2.2.2.1).trans ha.2.2.2.1, (hi.2.2.2.2).trans ha.2.2.2.2⟩

theorem runAuto_eq_map (rules : List Rule) (store : List Txn) :
    run_auto_categorization rules store = store.map (classifyTxn rules) := by
  induction rules generalizing store with
  | nil =>
      show store = store.map (classifyTxn [])
      rw [show classifyTxn [] = id from funext fun t => rfl, List.map_id]
  | cons r rs ih =>
      have h1 : run_auto_categorization (r :: rs) store
          = run_auto_categorization rs (store.map (applyRule r)) := rfl
      rw [h1, ih, List.map_map]
      rfl

/-- Claim C2: for every record in the store whose category differs from
"Uncategorized", the classification pass (`run_auto_categorization`)
leaves the record entirely unchanged, for every list of rules: the pass
acts pointwise by `classifyTxn`, and `classifyTxn` fixes every record
that is not Uncategorized. -/
theorem classify_preserves_classified (rules : List Rule) (store : List Txn) :
    run_auto_categorization rules store = store.map (classifyTxn rules) ∧
    ∀ t : Txn, t.category ≠ "Uncategorized" → classifyTxn rules t = t :=
  ⟨runAuto_eq_map rules store, fun t h => classifyTxn_of_ne rules t h⟩

def w2rule : Rule := { keyword := "coffee", category := "Dining Out", bucket := "SPEND" }

def w2txn : Txn :=
  { transaction_id := "id0", date := "2024-01-05", name := some "COFFEE SHOP",
    amount := some (Dec.make (-45) 1), category := "Dining Out", bucket := "SPEND",
    source := "Chase" }

theorem classify_preserves_classified_witness :
    w2txn.category ≠ "Uncategorized" ∧ classifyTxn [w2rule] w2txn = w2txn :=
  ⟨by decide, (classify_preserves_classified [w2rule] [w2txn]).2 w2txn (by decide)⟩

theorem classifyTxn_of_nomatch (rules : List Rule) (t : Txn)
    (h : ∀ r ∈ rules, nameMatches r t = false) : classifyTxn rules t = t := by
  induction rules with
  | nil => rfl
  | cons r rs ih =>
      have hm := h r (List.mem_cons_self r rs)
      have hr : applyRule r t = t := by
        apply applyRule_neg
        intro hc
        rw [hm] at hc
        exact absurd hc.2 (by decide)
      rw [classifyTxn_cons, hr]
      exact ih (fun r' hr' => h r' (List.mem_cons_of_mem _ hr'))

theorem applyRule_rebuild (r : Rule) (u v : Txn)
    (hcore : u.transaction_id = v.transaction_id ∧ u.date = v.date ∧
      u.name = v.name ∧ u.amount = v.amount ∧ u.source = v.source)
    (hu : u.category = "Uncategorized" ∧ nameMatches r u = true)
    (hv : v.category = "Uncategorized" ∧ nameMatches r v = true) :
    applyRule r u = applyRule r v := by
  rw [applyRule_pos _ _ hu, applyRule_pos _ _ hv]
  ext <;> simp [hcore.1, hcore.2.1, hcore.2.2.1, hcore.2.2.2.1, hcore.2.2.2.2]

theorem classifyTxn_idem (rules : List Rule) (t : Txn) :
    classifyTxn rules (classifyTxn rules t) = classifyTxn rules t := by
  induction rules generalizing t with
  | nil => rfl
  | cons r rs ih =>
      rw [classifyTxn_cons, classifyTxn_cons]
      by_cases hfire : (classifyTxn rs (applyRule r t)).category = "Uncategorized" ∧
          nameMatches r (classifyTxn rs (applyRule r t)) = true
      · by_cases h0 : t.category = "Uncategorized" ∧ nameMatches r t = true
        · have hu : applyRule r (classifyTxn rs (applyRule r t)) = applyRule r t := by
            obtain ⟨h1, h2, h3, h4, h5⟩ := classifyTxn_core rs (applyRule r t)
            obtain ⟨a1, a2, a3, a4, a5⟩ := applyRule_core r t
            exact applyRule_rebuild r _ t
              ⟨h1.trans a1, h2.trans a2, h3.trans a3, h4.trans a4, h5.trans a5⟩
              hfire h0
          rw [hu]
        · have ht1 : applyRule r t = t := applyRule_neg r t h0
          rw [ht1] at hfire ⊢
          by_cases hc : t.category = "Uncategorized"
          · have hname : (classifyTxn rs t).name = t.name := (classifyTxn_core rs t).2.2.1
            have hmatch : nameMatches r (classifyTxn rs t) = nameMatches r t := by
              unfold nameMatches
              rw [hname]
            have hmt : nameMatches r t = true := hmatch ▸ hfire.2
            exact absurd ⟨hc, hmt⟩ h0
          · have hfix : classifyTxn rs t = t := classifyTxn_of_ne rs t hc
            rw [hfix] at hfire
            exact absurd hfire.1 hc
      · have hu : applyRule r (classifyTxn rs (applyRule r t))
            = classifyTxn rs (applyRule r t) := applyRule_neg _ _ hfire
        rw [hu]
        exact ih (applyRule r t)

/-- Claim C9: the classification pass is idempotent: running
`run_auto_categorization` a second time immediately after a first pass
changes no record, for every store state and every rule list. -/
theorem classify_idempotent (rules : List Rule) (store : List Txn) :
    run_auto_categorization rules (run_auto_categorization rules store)
      = run_auto_categorization rules store := by
  calc run_auto_categorization rules (run_auto_categorization rules store)
      = (store.map (classifyTxn rules)).map (classifyTxn rules) := by
        rw [runAuto_eq_map, runAuto_eq_map]
    _ = store.map (fun t => classifyTxn rules (classifyTxn rules t)) := by
        rw [List.map_map]
        rfl
    _ = store.map (classifyTxn rules) := by
        rw [show (fun t => classifyTxn rules (classifyTxn rules t)) = classifyTxn rules from
          funext fun t => classifyTxn_idem rules t]
    _ = run_auto_categorization rules store := (runAuto_eq_map rules store).symm

def c3rules : List Rule :=
  [⟨"pay", "Credit Card Pay", "BILL"⟩, ⟨"pal", "Shopping", "SPEND"⟩]

def c3txn : Txn :=
  { transaction_id := "t3", date := "2024-01-02", name := some "PAYPAL INST XFER",
    amount := some (Dec.make (-20) 0), category := "Uncategorized", bucket := "SPEND",
    source := "Chase" }

/-- Claim C3 counterexample: the rule with keyword "pal" is in the list and
matches the Uncategorized record named "PAYPAL INST XFER", yet after the
pass the record's category is that of the earlier matching rule
("Credit Card Pay"), not "Shopping": the claim fails for any matching
rule that is not the first matching one, because the first firing rule
removes the record from the Uncategorized set. -/
theorem earlier_rule_preempts_later :
    (⟨"pal", "Shopping", "SPEND"⟩ : Rule) ∈ c3rules ∧
    c3txn.category = "Uncategorized" ∧
    nameMatches ⟨"pal", "Shopping", "SPEND"⟩ c3txn = true ∧
    (run_auto_categorization c3rules [c3txn]).map Txn.category ≠ ["Shopping"] ∧
    (run_auto_categorization c3rules [c3txn]).map Txn.category = ["Credit Card Pay"] := by
  decide

/-- Claim C3 (amended): for every rule R with `R.category ≠ "Uncategorized"`
and every Uncategorized record T whose name contains R.keyword
case-insensitively, if no rule placed before R in the ordered list
matches T, then after the classification pass T carries R's category and
bucket. -/
theorem classify_first_matching_rule (pre post : List Rule) (R : Rule) (t : Txn)
    (h1 : t.category = "Uncategorized") (h2 : nameMatches R t = true)
    (h3 : R.category ≠ "Uncategorized")
    (h4 : ∀ r ∈ pre, nameMatches r t = false) :
    (run_auto_categorization (pre ++ R :: post) [t]).map Txn.category = [R.category] ∧
    (run_auto_categorization (pre ++ R :: post) [t]).map Txn.bucket = [R.bucket] := by
  have hsingle : run_auto_categorization (pre ++ R :: post) [t]
      = [classifyTxn (pre ++ R :: post) t] := by
    rw [runAuto_eq_map]
    rfl
  have happ : classifyTxn (pre ++ R :: post) t = classifyTxn (R :: post) (classifyTxn pre t) := by
    unfold classifyTxn
    rw [List.foldl_append]
  have hpre : classifyTxn pre t = t := classifyTxn_of_nomatch pre t h4
  have hR : applyRule R t = { t with category := R.category, bucket := R.bucket } :=
    applyRule_pos R t ⟨h1, h2⟩
  have hpost : classifyTxn post { t with category := R.category, bucket := R.bucket }
      = { t with category := R.category, bucket := R.bucket } :=
    classifyTxn_of_ne _ _ h3
  rw [hsingle, happ, hpre, classifyTxn_cons, hR, hpost]
  exact ⟨rfl, rfl⟩

def w3txn : Txn :=
  { transaction_id := "t3w", date := "2024-02-01", name := some "INTERNET BILL",
    amount := some (Dec.make (-60) 0), category := "Uncategorized", bucket := "SPEND",
    source := "Sofi" }

theorem classify_first_matching_rule_witness :
    (run_auto_categorization ([⟨"zzz", "Rent", "BILL"⟩] ++
        (⟨"net", "Utilities", "BILL"⟩ : Rule) :: []) [w3txn]).map Txn.category
      = ["Utilities"] ∧
    (run_auto_categorization ([⟨"zzz", "Rent", "BILL"⟩] ++
        (⟨"net", "Utilities", "BILL"⟩ : Rule) :: []) [w3txn]).map Txn.bucket
      = ["BILL"] :=
  classify_first_matching_rule [⟨"zzz", "Rent", "BILL"⟩] [] ⟨"net", "Utilities", "BILL"⟩
    w3txn (by decide) (by decide) (by decide) (by decide)

def c4rules : List Rule :=
  [⟨"mart", "Groceries", "SPEND"⟩, ⟨"walmart", "Shopping", "SPEND"⟩]

def c4txn : Txn :=
  { transaction_id := "t4", date := "2024-03-01", name := some "WALMART STORE 42",
    amount := some (Dec.make (-35) 0), category := "Uncategorized", bucket := "SPEND",
    source := "Chime" }

/-- Claim C4 counterexample: the Uncategorized record "WALMART STORE 42"
matches both rules of `c4rules`, whose last element assigns
"Shopping"; after the pass the record carries the FIRST matching rule's
category "Groceries", not the last one's: the first firing rule sets
`category` away from "Uncategorized", so the later matching rule's
UPDATE no longer selects the record. -/
theorem last_matching_rule_does_not_win :
    nameMatches ⟨"mart", "Groceries", "SPEND"⟩ c4txn = true ∧
    nameMatches ⟨"walmart", "Shopping", "SPEND"⟩ c4txn = true ∧
    c4rules.getLast? = some ⟨"walmart", "Shopping", "SPEND"⟩ ∧
    c4txn.category = "Uncategorized" ∧
    (run_auto_categorization c4rules [c4txn]).map Txn.category = ["Groceries"] ∧
    (run_auto_categorization c4rules [c4txn]).map Txn.category ≠ ["Shopping"] := by
  decide

theorem classifyTxn_find (rules : List Rule) (t : Txn)
    (h1 : t.category = "Uncategorized")
    (h2 : ∀ r ∈ rules, r.category ≠ "Uncategorized") :
    classifyTxn rules t =
      match rules.find? (fun x => nameMatches x t) with
      | some R => { t with category := R.category, bucket := R.bucket }
      | none => t := by
  induction rules with
  | nil => rfl
  | cons r rs ih =>
      rw [classifyTxn_cons]
      by_cases hm : nameMatches r t = true
      · have hfind : (r :: rs).find? (fun x => nameMatches x t) = some r :=
          List.find?_cons_of_pos _ hm
        rw [hfind, applyRule_pos r t ⟨h1, hm⟩]
        exact classifyTxn_of_ne _ _ (h2 r (List.mem_cons_self r rs))
      · have hfind : (r :: rs).find? (fun x => nameMatches x t)
            = rs.find? (fun x => nameMatches x t) :=
          List.find?_cons_of_neg _ hm
        rw [hfind, applyRule_neg r t (fun hc => hm hc.2)]
        exact ih (fun r' h' => h2 r' (List.mem_cons_of_mem _ h'))

/-- Claim C4 (amended): for every Uncategorized record, one classification
pass assigns the category and bucket of the FIRST rule in the ordered
list whose keyword matches the record's name (and leaves the record
unchanged when no rule matches), provided every rule's category differs
from "Uncategorized" (as all rules created through the app's UI do):
the first matching rule fires and removes the record from the
Uncategorized set, so later matching rules do not fire. -/
theorem classify_first_match_characterization (rules : List Rule) (t : Txn)
    (h1 : t.category = "Uncategorized")
    (h2 : ∀ r ∈ rules, r.category ≠ "Uncategorized") :
    run_auto_categorization rules [t] =
      [match rules.find? (fun x => nameMatches x t) with
       | some R => { t with category := R.category, bucket := R.bucket }
       | none => t] := by
  rw [runAuto_eq_map]
  show [classifyTxn rules t] = _
  rw [classifyTxn_find rules t h1 h2]

def w4txn : Txn :=
  { transaction_id := "t4w", date := "2024-03-02", name := some "SHELL GAS 42",
    amount := some (Dec.make (-30) 0), category := "Uncategorized", bucket := "SPEND",
    source := "Citi" }

def w4rules : List Rule :=
  [⟨"gas", "Transport", "SPEND"⟩, ⟨"shell", "Shopping", "SPEND"⟩]

theorem classify_first_match_characterization_witness :
    run_auto_categorization w4rules [w4txn] =
      [match w4rules.find? (fun x => nameMatches x w4txn) with
       | some R => { w4txn with category := R.category, bucket := R.bucket }
       | none => w4txn] :=
  classify_first_match_characterization w4rules w4txn (by decide) (by decide)

/-- Whether some record of the store already carries the given
`transaction_id` (the primary key of the `transactions` table). -/
def hasId (store : List Txn) (i : String) : Bool :=
  store.any (fun t => t.transaction_id = i)

/-- One `INSERT ... ON CONFLICT (transaction_id) DO NOTHING` against the
store (app.py:196-204): a record whose id is already present is ignored
and no field of the existing record changes; otherwise the record is
appended. -/
def insertIfAbsent (store : List Txn) (t : Txn) : List Txn :=
  if hasId store t.transaction_id then store else store ++ [t]

/-- `save_to_neon` (app.py:190-208): insert each row of the cleaned frame
in order, returning the new store contents together with the returned
`count`. Note the source increments `count` for every row whose INSERT
statement executes without raising: `ON CONFLICT DO NOTHING` does not
raise, so duplicates are counted too. -/
def save_to_neon (store : List Txn) (df : List Txn) : List Txn × Nat :=
  df.foldl (fun acc t => (insertIfAbsent acc.1 t, acc.2 + 1)) (store, 0)

/-- The store contents after `save_to_neon`, separated from the count. -/
def insertAll (store : List Txn) (df : List Txn) : List Txn :=
  df.foldl insertIfAbsent store

theorem save_to_neon_aux (df : List Txn) :
    ∀ (store : List Txn) (n : Nat),
      df.foldl (fun acc t => (insertIfAbsent acc.1 t, acc.2 + 1)) (store, n)
        = (insertAll store df, n + df.length) := by
  induction df with
  | nil => intro store n; simp [insertAll]
  | cons t df ih =>
      intro store n
      show df.foldl _ (insertIfAbsent store t, n + 1) = _
      rw [ih (insertIfAbsent store t) (n + 1)]
      simp [insertAll, List.length_cons]
      omega

theorem save_to_neon_eq (store df : List Txn) :
    save_to_neon store df = (insertAll store df, df.length) := by
  unfold save_to_neon
  rw [save_to_neon_aux df store 0]
  simp

theorem hasId_insert_self (store : List Txn) (t : Txn) :
    hasId (insertIfAbsent store t) t.transaction_id = true := by
  unfold insertIfAbsent
  split
  · assumption
  · unfold hasId
    simp

theorem hasId_insert_mono (store : List Txn) (t : Txn) (i : String)
    (h : hasId store i = true) : hasId (insertIfAbsent store t) i = true := by
  unfold insertIfAbsent
  split
  · exact h
  · unfold hasId at h ⊢
    simp only [List.any_append, h, Bool.true_or]

theorem insertIfAbsent_noop (store : List Txn) (t : Txn)
    (h : hasId store t.transaction_id = true) : insertIfAbsent store t = store := by
  unfold insertIfAbsent
  rw [if_pos h]

theorem insertAll_mono (df : List Txn) :
    ∀ (store : List Txn) (i : String), hasId store i = true →
      hasId (insertAll store df) i = true := by
  induction df with
  | nil => intro store i h; exact h
  | cons t df ih =>
      intro store i h
      show hasId (insertAll (insertIfAbsent store t) df) i = true
      exact ih _ i (hasId_insert_mono store t i h)

theorem insertAll_has_mem (df : List Txn) :
    ∀ (store : List Txn) (t : Txn), t ∈ df →
      hasId (insertAll store df) t.transaction_id = true := by
  induction df with
  | nil => intro _ t h; cases h
  | cons u df ih =>
      intro store t h
      show hasId (insertAll (insertIfAbsent store u) df) t.transaction_id = true
      rcases List.mem_cons.mp h with h | h
      · subst h
        exact insertAll_mono df _ _ (hasId_insert_self store t)
      · exact ih _ t h

theorem insertAll_noop (df : List Txn) :
    ∀ (store : List Txn), (∀ t ∈ df, hasId store t.transaction_id = true) →
      insertAll store df = store := by
  induction df with
  | nil => intro store _; rfl
  | cons u df ih =>
      intro store h
      show insertAll (insertIfAbsent store u) df = store
      rw [insertIfAbsent_noop store u (h u (List.mem_cons_self u df))]
      exact ih store (fun t ht => h t (List.mem_cons_of_mem _ ht))

def c1txn : Txn :=
  { transaction_id := "f2c31", date := "2024-01-05", name := some "COFFEE SHOP",
    amount := some (Dec.make (-45) 1), category := "Uncategorized", bucket := "SPEND",
    source := "Chase" }

/-- Claim C1 counterexample: ingesting the one-row file `[c1txn]` into an
empty store and then ingesting the identical file a second time leaves
the store unchanged, but the count reported by the second
`save_to_neon` pass is 1 (the row count), not 0: the source increments
`count` for every executed INSERT, and `ON CONFLICT DO NOTHING` does
not raise, so duplicate rows are counted as if inserted. -/
theorem second_pass_count_not_zero :
    hasId (save_to_neon [] [c1txn]).1 c1txn.transaction_id = true ∧
    (save_to_neon (save_to_neon [] [c1txn]).1 [c1txn]).1 = (save_to_neon [] [c1txn]).1 ∧
    (save_to_neon (save_to_neon [] [c1txn]).1 [c1txn]).2 = 1 ∧
    (save_to_neon (save_to_neon [] [c1txn]).1 [c1txn]).2 ≠ 0 := by
  decide

/-- Claim C1 (amended): inserting a record whose id already exists in the
store is a no-op that updates no field of the existing record, and for
every file, ingesting it a second time yields the same final store
state as ingesting it once; however the count reported by the second
pass equals the number of rows in the file (every row is counted, the
conflict no-ops included), not 0. -/
theorem reimport_state_idempotent (store df : List Txn) :
    (save_to_neon (save_to_neon store df).1 df).1 = (save_to_neon store df).1 ∧
    (save_to_neon (save_to_neon store df).1 df).2 = df.length ∧
    ∀ t : Txn, hasId store t.transaction_id = true → insertIfAbsent store t = store := by
  simp only [save_to_neon_eq]
  exact ⟨insertAll_noop df _ (fun t ht => insertAll_has_mem df store t ht),
    trivial, fun t h => insertIfAbsent_noop store t h⟩

def c1wtxn : Txn :=
  { transaction_id := "a11ce", date := "2024-02-01", name := some "PAYROLL",
    amount := some (Dec.make 1200 0), category := "Uncategorized", bucket := "SPEND",
    source := "Sofi" }

theorem reimport_state_idempotent_witness :
    hasId [c1wtxn] c1wtxn.transaction_id = true ∧
    insertIfAbsent [c1wtxn] c1wtxn = [c1wtxn] :=
  ⟨by decide, (reimport_state_idempotent [c1wtxn] []).2.2 c1wtxn (by decide)⟩

/-- The whitespace class of Python's `\s` and `str.split()`, restricted to
ASCII (the statement text is ASCII). -/
def isWs (c : Char) : Bool :=
  c = ' ' || c = '\t' || c = '\n' || c = '\r' || c = '\x0b' || c = '\x0c'

/-- ASCII `[A-Z]` of the line regex in `process_chime_pdf` (app.py:98). -/
def isUpperAZ (c : Char) : Bool := 'A' ≤ c && c ≤ 'Z'

/-- ASCII `[a-z]` of the line regex in `process_chime_pdf` (app.py:98). -/
def isLowerAZ (c : Char) : Bool := 'a' ≤ c && c ≤ 'z'

/-- The `\d{1,2}/\d{1,2}/\d{2,4}` alternative of the date regex
(app.py:98). The regex's greedy-with-backtracking digit groups are
equivalent to checking the length of each maximal digit run, because
the character after a maximal run is never a digit. Returns the
matched date characters and the remainder. -/
def matchNumericDate (cs : List Char) : Option (List Char × List Char) :=
  let d1 := cs.takeWhile Char.isDigit
  let r1 := cs.dropWhile Char.isDigit
  if d1.length = 0 ∨ 2 < d1.length then none else
  match r1 with
  | '/' :: r2 =>
    let d2 := r2.takeWhile Char.isDigit
    let r3 := r2.dropWhile Char.isDigit
    if d2.length = 0 ∨ 2 < d2.length then none else
    match r3 with
    | '/' :: r4 =>
      let d3 := r4.takeWhile Char.isDigit
      let r5 := r4.dropWhile Char.isDigit
      if 2 ≤ d3.length ∧ d3.length ≤ 4 then
        some (d1 ++ '/' :: (d2 ++ '/' :: d3), r5)
      else none
    | _ => none
  | _ => none

/-- The `[A-Z][a-z]{2}\s\d{1,2}` alternative of the date regex
(app.py:98): month abbreviation, one whitespace character, and a one- or
two-digit day. Returns the matched date characters and the remainder. -/
def matchMonDate (cs : List Char) : Option (List Char × List Char) :=
  match cs with
  | c1 :: c2 :: c3 :: c4 :: rest =>
    if isUpperAZ c1 && isLowerAZ c2 && isLowerAZ c3 && isWs c4 then
      let d := rest.takeWhile Char.isDigit
      let r := rest.dropWhile Char.isDigit
      if d.length = 1 ∨ d.length = 2 then some (c1 :: c2 :: c3 :: c4 :: d, r)
      else none
    else none
  | _ => none

/-- After the date group, the regex requires `\s+` and captures the rest of
the line (`(.*)`): at least one whitespace character is consumed, then
the remainder after the maximal whitespace run is group 2. -/
def afterDate (p : List Char × List Char) : Option (String × String) :=
  let ws := p.2.takeWhile isWs
  let rest := p.2.dropWhile isWs
  if ws.length = 0 then none else some (String.mk p.1, String.mk rest)

/-- `re.match(r'^(\d{1,2}/\d{1,2}/\d{2,4}|[A-Z][a-z]{2}\s\d{1,2})\s+(.*)', line)`
(app.py:98), returning the two capture groups. The two date
alternatives start with a digit and an uppercase letter respectively,
so trying them in order is exactly the regex's alternation. -/
def matchDateLead (line : String) : Option (String × String) :=
  match matchNumericDate line.data with
  | some p => afterDate p
  | none =>
    match matchMonDate line.data with
    | some p => afterDate p
    | none => none

/-- Accumulator pass behind `splitWs`. -/
def wordsGo : List Char → List Char → List String
  | cur, [] => if cur.isEmpty then [] else [String.mk cur.reverse]
  | cur, c :: cs =>
    if isWs c then
      if cur.isEmpty then wordsGo [] cs else String.mk cur.reverse :: wordsGo [] cs
    else wordsGo (c :: cur) cs

/-- Python `str.split()` with no argument (app.py:104): split on maximal
whitespace runs, producing no empty tokens. -/
def splitWs (s : String) : List String := wordsGo [] s.data

/-- The per-character effect of
`.replace('$', '').replace(',', '').replace('(', '-').replace(')', '')`
(app.py:110); the four replacements are independent single-character
substitutions, so one character-wise pass is equivalent. -/
def cleanChar (c : Char) : Option Char :=
  if c = '$' then none
  else if c = ',' then none
  else if c = '(' then some '-'
  else if c = ')' then none
  else some c

/-- The cleaned form of one token (app.py:110). -/
def cleanToken (t : String) : String := String.mk (t.data.filterMap cleanChar)

/-- Integer value of an ASCII digit. -/
def digitVal (c : Char) : ℤ := Int.ofNat (c.toNat - 48)

/-- Integer value of a digit run. -/
def digitsToInt (ds : List Char) : ℤ :=
  ds.foldl (fun acc c => acc * 10 + digitVal c) 0

/-- `\d+\.\d{2}` anchored at both ends, with its decimal value: the digit
run before '.' is maximal, so greedy matching is exact. -/
def parseUnsignedAmount (cs : List Char) : Option Dec :=
  let ds := cs.takeWhile Char.isDigit
  let r := cs.dropWhile Char.isDigit
  if ds.length = 0 then none else
  match r with
  | '.' :: f1 :: f2 :: [] =>
    if f1.isDigit && f2.isDigit then
      some (Dec.make (digitsToInt ds * 100 + (digitVal f1 * 10 + digitVal f2)) 2)
    else none
  | _ => none

/-- `re.match(r'^-?\d+\.\d{2}$', clean_token)` (app.py:111) together with
`float(clean_token)`: an optional leading minus, digits, a dot and
exactly two digits; the value is exact. -/
def parseAmountToken (s : String) : Option Dec :=
  match s.data with
  | '-' :: rest => (parseUnsignedAmount rest).map Dec.negate
  | cs => parseUnsignedAmount cs

/-- The backward scan of app.py:109-115: walking the token list from the
end, the first token whose cleaned form matches the amount pattern
yields the amount, and the tokens strictly before it become the
description (`tokens[:i]`). Returns that prefix and the amount. -/
def findAmtLast : List String → Option (List String × Dec)
  | [] => none
  | t :: rest =>
    match findAmtLast rest with
    | some (pre, a) => some (t :: pre, a)
    | none =>
      match parseAmountToken (cleanToken t) with
      | some a => some ([], a)
      | none => none

/-- A raw extracted transaction triple of `process_chime_pdf`
(app.py:118). -/
structure RawTx where
  date : String
  name : String
  amount : Dec
  source : String
deriving Repr, DecidableEq

/-- Join description tokens with single spaces (`" ".join`, app.py:118). -/
def joinSpace : List String → String
  | [] => ""
  | [w] => w
  | w :: ws => w ++ " " ++ joinSpace ws

/-- One line of `process_chime_pdf` (app.py:97-118): match the date
prefix, append the fallback year to a date without '/', scan the
remaining tokens from the end for the amount, and emit a record only
when one is found. -/
def parseLine (defaultYear : String) (line : String) : Option RawTx :=
  match matchDateLead line with
  | none => none
  | some (datePart, rest) =>
    let date2 := if datePart.data.contains '/' then datePart
                 else datePart ++ ", " ++ defaultYear
    match findAmtLast (splitWs rest) with
    | none => none
    | some (pre, a) =>
      some { date := date2, name := joinSpace pre, amount := a,
             source := "Chime PDF" }

/-- Accumulator pass behind `linesOf`. -/
def splitCharGo (sep : Char) : List Char → List Char → List String
  | cur, [] => [String.mk cur.reverse]
  | cur, c :: cs =>
    if c = sep then String.mk cur.reverse :: splitCharGo sep [] cs
    else splitCharGo sep (c :: cur) cs

/-- Python `text.split('\n')` (app.py:96). -/
def linesOf (s : String) : List String := splitCharGo '\n' [] s.data

/-- `process_chime_pdf` (app.py:85-121) over already extracted page texts:
pages are processed independently and the per-line results
concatenated; the fallback year is the `20\d{2}` match in the filename,
passed here as a parameter. The pandas frame constructed from the
result is handled by `clean_bank_file` below. -/
def process_chime_pdf (defaultYear : String) (pages : List String) : List RawTx :=
  pages.foldr (fun pg acc => (linesOf pg).filterMap (parseLine defaultYear) ++ acc) []

theorem findAmtLast_cons (t : String) (rest : List String) :
    findAmtLast (t :: rest) =
      match findAmtLast rest with
      | some (pre, a) => some (t :: pre, a)
      | none =>
        match parseAmountToken (cleanToken t) with
        | some a => some ([], a)
        | none => none := rfl

theorem findAmtLast_none : ∀ (toks : List String), findAmtLast toks = none →
    ∀ u ∈ toks, parseAmountToken (cleanToken u) = none := by
  intro toks
  induction toks with
  | nil => intro _ u hu; cases hu
  | cons t rest ih =>
      intro h u hu
      rw [findAmtLast_cons] at h
      cases hr : findAmtLast rest with
      | some p => rw [hr] at h; obtain ⟨pre, a⟩ := p; simp at h
      | none =>
          rw [hr] at h
          rcases List.mem_cons.mp hu with rfl | hu'
          · cases hp : parseAmountToken (cleanToken u) with
            | some a => rw [hp] at h; simp at h
            | none => rfl
          · exact ih hr u hu'

theorem findAmtLast_spec : ∀ (toks pre : List String) (a : Dec),
    findAmtLast toks = some (pre, a) →
    ∃ t suf, toks = pre ++ t :: suf ∧ parseAmountToken (cleanToken t) = some a ∧
      ∀ u ∈ suf, parseAmountToken (cleanToken u) = none := by
  intro toks
  induction toks with
  | nil => intro pre a h; exact Option.noConfusion h
  | cons t rest ih =>
      intro pre a h
      rw [findAmtLast_cons] at h
      cases hr : findAmtLast rest with
      | some p =>
          rw [hr] at h
          obtain ⟨pre', a'⟩ := p
          simp only [Option.some.injEq, Prod.mk.injEq] at h
          obtain ⟨hpre, ha⟩ := h
          subst hpre
          subst ha
          obtain ⟨u, suf, heq, hp, hnone⟩ := ih pre' a' hr
          exact ⟨u, suf, by rw [heq]; rfl, hp, hnone⟩
      | none =>
          rw [hr] at h
          cases hp : parseAmountToken (cleanToken t) with
          | some a0 =>
              rw [hp] at h
              simp only [Option.some.injEq, Prod.mk.injEq] at h
              obtain ⟨hpre, ha⟩ := h
              subst hpre
              subst ha
              exact ⟨t, rest, rfl, hp, findAmtLast_none rest hr⟩
          | none => rw [hp] at h; exact Option.noConfusion h

/-- Claim C5: the statement parser scans the whitespace tokens after the
date from the end backwards; the first (rightmost) token matching
`-?\d+\.\d{2}` after the `$`/`,` stripping and the paren-to-minus
mapping becomes the amount, the tokens before it become the
description, and a parenthesized amount is negative; on the line
"Jan 5 COFFEE SHOP PURCHASE 4.50" with fallback year 2024 the parser
yields date "Jan 5, 2024", name "COFFEE SHOP PURCHASE" and amount
4.50. -/
theorem amount_scan_from_end :
    (∀ (toks pre : List String) (a : Dec), findAmtLast toks = some (pre, a) →
      ∃ t suf, toks = pre ++ t :: suf ∧ parseAmountToken (cleanToken t) = some a ∧
        ∀ u ∈ suf, parseAmountToken (cleanToken u) = none) ∧
    cleanToken "(12.34)" = "-12.34" ∧
    parseAmountToken "-12.34" = some (Dec.make (-1234) 2) ∧
    parseLine "2024" "Jan 5 COFFEE SHOP PURCHASE 4.50" =
      some { date := "Jan 5, 2024", name := "COFFEE SHOP PURCHASE",
             amount := Dec.make 450 2, source := "Chime PDF" } :=
  ⟨findAmtLast_spec, by decide, by decide, by decide⟩

theorem amount_scan_from_end_witness :
    ∃ t suf, ["COFFEE", "4.50"] = ["COFFEE"] ++ t :: suf ∧
      parseAmountToken (cleanToken t) = some (Dec.make 450 2) ∧
      ∀ u ∈ suf, parseAmountToken (cleanToken u) = none :=
  amount_scan_from_end.1 ["COFFEE", "4.50"] ["COFFEE"] (Dec.make 450 2) (by decide)

/-- Claim C8: the statement parser is a total function of its input text
(never throws, by construction of the embedding), a line without an
accepted date prefix or without an amount token yields no record, every
record of the output comes from some line for which `parseLine`
succeeded, and the line "BALANCE FORWARD" produces no record. -/
theorem malformed_lines_skipped :
    (∀ y line : String, matchDateLead line = none → parseLine y line = none) ∧
    (∀ (y line d rest : String), matchDateLead line = some (d, rest) →
      findAmtLast (splitWs rest) = none → parseLine y line = none) ∧
    (∀ (y : String) (pages : List String) (t : RawTx), t ∈ process_chime_pdf y pages →
      ∃ pg ∈ pages, ∃ line ∈ linesOf pg, parseLine y line = some t) ∧
    (∀ y : String, parseLine y "BALANCE FORWARD" = none) := by
  refine ⟨?_, ?_, ?_, ?_⟩
  · intro y line h
    simp [parseLine, h]
  · intro y line d rest h1 h2
    simp [parseLine, h1, h2]
  · intro y pages
    induction pages with
    | nil => intro t ht; cases ht
    | cons pg pages ih =>
        intro t ht
        have hsplit : t ∈ (linesOf pg).filterMap (parseLine y) ∨
            t ∈ process_chime_pdf y pages := List.mem_append.mp ht
        rcases hsplit with h | h
        · obtain ⟨line, hline, hsome⟩ := List.mem_filterMap.mp h
          exact ⟨pg, List.mem_cons_self pg pages, line, hline, hsome⟩
        · obtain ⟨pg', hpg', line, hline, hsome⟩ := ih t h
          exact ⟨pg', List.mem_cons_of_mem pg hpg', line, hline, hsome⟩
  · intro y
    have h : matchDateLead "BALANCE FORWARD" = none := by decide
    simp [parseLine, h]

theorem malformed_lines_skipped_witness :
    parseLine "2024" "BALANCE FORWARD" = none :=
  malformed_lines_skipped.1 "2024" "BALANCE FORWARD" (by decide)

/-- A pandas cell: missing (`NaN`), text, or numeric. The input frame is
taken as `pd.read_csv` delivers it: a column whose values all parse as
numbers arrives as numeric cells, other columns as text cells, empty
cells as `na`. -/
inductive Cell where
  | na : Cell
  | str : String → Cell
  | num : Dec → Cell
deriving Repr, DecidableEq

/-- A data frame row, keyed by column name. -/
abbrev Row := List (String × Cell)

/-- A pandas data frame: column names plus rows. -/
structure Frame where
  header : List String
  rows : List Row
deriving Repr, DecidableEq

/-- `row.get(c)` / `df[c]` on one row: the first entry with the given key,
`na` when absent. -/
def rowGet (r : Row) (c : String) : Cell :=
  match r with
  | [] => Cell.na
  | (k, v) :: rest => if k = c then v else rowGet rest c

/-- Header normalization of app.py:131: strip surrounding whitespace,
lowercase, drop the BOM character. -/
def normHeader (h : String) : String :=
  String.mk (((((h.data.dropWhile isWs).reverse.dropWhile isWs).reverse).map
    Char.toLower).filter (fun c => c != '\uFEFF'))

/-- Apply header normalization to the column names and row keys. -/
def normFrame (f : Frame) : Frame :=
  { header := f.header.map normHeader,
    rows := f.rows.map (fun r => r.map (fun p => (normHeader p.1, p.2))) }

/-- A rename mapping applied to one column name (`df.rename` ignores
absent keys, so a plain lookup-with-default suffices). -/
def renameKey (m : List (String × String)) (h : String) : String :=
  match m with
  | [] => h
  | (a, b) :: rest => if h = a then b else renameKey rest h

/-- `df.rename(columns=m)`. -/
def renameFrame (m : List (String × String)) (f : Frame) : Frame :=
  { header := f.header.map (renameKey m),
    rows := f.rows.map (fun r => r.map (fun p => (renameKey m p.1, p.2))) }

/-- `if c not in df.columns: df[c] = v` — add a constant column when
absent. -/
def ensureCol (c : String) (v : Cell) (f : Frame) : Frame :=
  if f.header.contains c then f
  else { header := f.header ++ [c], rows := f.rows.map (fun r => r ++ [(c, v)]) }

/-- Set the given key of a row (`df[c] = v` on one row). -/
def setKey (r : Row) (c : String) (v : Cell) : Row :=
  (r.filter (fun p => p.1 != c)) ++ [(c, v)]

/-- `df[c] = v` — add or overwrite a constant column. -/
def setCol (c : String) (v : Cell) (f : Frame) : Frame :=
  { header := if f.header.contains c then f.header else f.header ++ [c],
    rows := f.rows.map (fun r => setKey r c v) }

/-- Row-by-row application of a fallible column operation, propagating the
first raise — the effect of a raising pandas column transform under the
whole-file exception handler. -/
def mapE {α β : Type} (f : α → Except String β) : List α → Except String (List β)
  | [] => Except.ok []
  | x :: xs =>
    match f x with
    | Except.error e => Except.error e
    | Except.ok y =>
      match mapE f xs with
      | Except.error e => Except.error e
      | Except.ok ys => Except.ok (y :: ys)

/-- `.fillna(0)` value of a credit/debit cell. -/
def numOr0 (c : Cell) : Dec :=
  match c with
  | Cell.num q => q
  | _ => Dec.make 0 0

/-- The Citi amount derivation (app.py:144-145):
`df['amount'] = df['credit'].fillna(0) - df['debit'].fillna(0)` when no
amount column exists. A text cell in either column means the pandas
column has object dtype, whose subtraction raises a `TypeError` that
the outer handler turns into a whole-file failure; per-cell checking is
equivalent because `read_csv` delivers fully numeric columns as
numeric cells (see `Cell`). -/
def citiDerive (f : Frame) : Except String Frame :=
  if f.header.contains "amount" then Except.ok f
  else
    match mapE (fun r =>
      match rowGet r "credit", rowGet r "debit" with
      | Cell.str _, _ => Except.error "TypeError: unsupported operand"
      | _, Cell.str _ => Except.error "TypeError: unsupported operand"
      | c, d => Except.ok (r ++ [("amount", Cell.num (Dec.sub (numOr0 c) (numOr0 d)))]))
      f.rows with
    | Except.ok rows => Except.ok { header := f.header ++ ["amount"], rows := rows }
    | Except.error e => Except.error e

/-- The per-bank branch of `clean_bank_file` (app.py:133-152), after
header normalization: Chase renames post/transaction date and
description; Citi renames description, fills absent debit/credit
columns with 0 and derives the amount when absent; Sofi renames
payment date and description; Chime renames transaction date and
description; any other bank string changes nothing. -/
def bankAdapt (bank : String) (f : Frame) : Except String Frame :=
  if bank = "Chase" then
    let f1 := if f.header.contains "post date" then renameFrame [("post date", "date")] f
              else if f.header.contains "transaction date" then
                renameFrame [("transaction date", "date")] f
              else f
    let f2 := if f1.header.contains "description" then
                renameFrame [("description", "name")] f1
              else f1
    Except.ok f2
  else if bank = "Citi" then
    citiDerive (ensureCol "credit" (Cell.num (Dec.make 0 0))
      (ensureCol "debit" (Cell.num (Dec.make 0 0))
        (renameFrame [("date", "date"), ("description", "name")] f)))
  else if bank = "Sofi" then
    let f1 := if f.header.contains "payment date" then
                renameFrame [("payment date", "date")] f
              else f
    Except.ok (renameFrame [("description", "name")] f1)
  else if bank = "Chime" then
    Except.ok (renameFrame [("transaction date", "date"), ("description", "name")] f)
  else Except.ok f

/-- The CSV branch up to and including `df['source'] = bank_choice`
(app.py:154). -/
def bankPrep (bank : String) (f : Frame) : Except String Frame :=
  match bankAdapt bank f with
  | Except.ok g => Except.ok (setCol "source" (Cell.str bank) g)
  | Except.error e => Except.error e

/-- Numeric string parsing behind `pd.to_numeric` / `float` for the plain
decimal forms these files carry: optional sign, integer digits, an
optional fraction after a dot, at least one digit overall. -/
def pyFloatCore (cs : List Char) : Option Dec :=
  let sign : ℤ := match cs with
    | '-' :: _ => -1
    | _ => 1
  let cs1 := match cs with
    | '-' :: rest => rest
    | '+' :: rest => rest
    | l => l
  let ip := cs1.takeWhile Char.isDigit
  let r1 := cs1.dropWhile Char.isDigit
  match r1 with
  | [] => if ip.length = 0 then none else some (Dec.make (sign * digitsToInt ip) 0)
  | '.' :: fp =>
    if fp.all Char.isDigit && (ip.length + fp.length ≠ 0 : Bool) then
      some (Dec.make (sign * (digitsToInt ip * (10 : ℤ) ^ fp.length + digitsToInt fp))
        fp.length)
    else none
  | _ => none

/-- `float()`-style parsing after discarding surrounding whitespace. -/
def pyFloat (s : String) : Option Dec :=
  pyFloatCore (((s.data.dropWhile isWs).reverse.dropWhile isWs).reverse)

/-- The `$`/`,` stripping of app.py:168
(`.str.replace('$', '').str.replace(',', '')`). -/
def stripMoney (s : String) : String :=
  String.mk (s.data.filter (fun c => c != '$' && c != ','))

/-- Amount coercion of app.py:164-169 on one cell. A numeric cell (float
dtype column) is used as is; pandas skips the object-dtype cleanup for
such columns, and running the strip-and-parse on the canonical numeric
string would return the same value, so per-cell handling is
equivalent. A missing cell stays missing (`astype(str)` renders it
"nan", which `to_numeric` maps back to `NaN`). A text cell is stripped
of `$` and `,` and parsed; failure raises, which the outer handler
turns into a whole-file failure. -/
def coerceAmount (c : Cell) : Except String (Option Dec) :=
  match c with
  | Cell.na => Except.ok none
  | Cell.num q => Except.ok (some q)
  | Cell.str s =>
    match pyFloat (stripMoney s) with
    | some q => Except.ok (some q)
    | none => Except.error "ValueError: unable to parse string"

/-- Zero-pad a one-digit component. -/
def pad2c (ds : List Char) : List Char :=
  if ds.length = 1 then '0' :: ds else ds

/-- Three-letter month abbreviations and their zero-padded numbers. -/
def monthAbbrevs : List (String × String) :=
  [("Jan", "01"), ("Feb", "02"), ("Mar", "03"), ("Apr", "04"), ("May", "05"),
   ("Jun", "06"), ("Jul", "07"), ("Aug", "08"), ("Sep", "09"), ("Oct", "10"),
   ("Nov", "11"), ("Dec", "12")]

/-- Lookup in a small string map. -/
def lookupStr (m : List (String × String)) (k : String) : Option String :=
  match m with
  | [] => none
  | (a, b) :: rest => if k = a then some b else lookupStr rest k

/-- A digit run of length 1 or 2 whose value lies in the given range. -/
def validComp (ds : List Char) (lo hi : ℤ) : Bool :=
  ds.all Char.isDigit && (decide (1 ≤ ds.length) && decide (ds.length ≤ 2)) &&
    (decide (lo ≤ digitsToInt ds) && decide (digitsToInt ds ≤ hi))

/-- `YYYY-M-D` dates. -/
def parseDateISO (cs : List Char) : Option String :=
  match splitCharGo '-' [] cs with
  | [ys, ms, ds] =>
    if (ys.data.all Char.isDigit && decide (ys.data.length = 4)) &&
        validComp ms.data 1 12 && validComp ds.data 1 31 then
      some (String.mk (ys.data ++ '-' :: (pad2c ms.data ++ '-' :: pad2c ds.data)))
    else none
  | _ => none

/-- `M/D/YYYY` dates (US month-first order, as pandas defaults to). -/
def parseDateMDY (cs : List Char) : Option String :=
  match splitCharGo '/' [] cs with
  | [ms, ds, ys] =>
    if (ys.data.all Char.isDigit && decide (ys.data.length = 4)) &&
        validComp ms.data 1 12 && validComp ds.data 1 31 then
      some (String.mk (ys.data ++ '-' :: (pad2c ms.data ++ '-' :: pad2c ds.data)))
    else none
  | _ => none

/-- `Mon D, YYYY` dates, the form the statement parser emits. -/
def parseDateMonDY (cs : List Char) : Option String :=
  match cs with
  | m1 :: m2 :: m3 :: ' ' :: rest =>
    match lookupStr monthAbbrevs (String.mk [m1, m2, m3]) with
    | none => none
    | some mm =>
      let ds := rest.takeWhile Char.isDigit
      let r1 := rest.dropWhile Char.isDigit
      match r1 with
      | ',' :: ' ' :: ys =>
        if (ys.all Char.isDigit && decide (ys.length = 4)) && validComp ds 1 31 then
          some (String.mk (ys ++ '-' :: (mm.data ++ '-' :: pad2c ds)))
        else none
      | _ => none
  | _ => none

/-- Model of the external pandas datetime parser composed with
`strftime('%Y-%m-%d')` (app.py:171), covering the date formats of this
document family (`YYYY-M-D`, `M/D/YYYY`, `Mon D, YYYY`); any other
text is unparseable and raises in pandas (`errors='raise'` is the
`pd.to_datetime` default), modelled as `none` here. -/
def parseDate (s : String) : Option String :=
  match parseDateISO s.data with
  | some iso => some iso
  | none =>
    match parseDateMDY s.data with
    | some iso => some iso
    | none => parseDateMonDY s.data

/-- Date conversion of app.py:171 on one cell: a missing cell becomes
`NaT` (later rendered `NaN` by `strftime` and dropped); text either
parses to ISO form or raises, aborting the file; a numeric date column
is outside the model (no claim exercises one). -/
def coerceDate (c : Cell) : Except String (Option String) :=
  match c with
  | Cell.na => Except.ok none
  | Cell.str s =>
    match parseDate s with
    | some iso => Except.ok (some iso)
    | none => Except.error "DateParseError: unable to parse date"
  | Cell.num _ => Except.error "unmodelled numeric date column"

/-- Decimal digit character. -/
def digitChar (n : ℕ) : Char := Char.ofNat (48 + n)

/-- Digit characters of a natural number, most significant first; the
first argument is structural fuel (any value above the digit count
works). -/
def natDigitsGo : ℕ → ℕ → List Char
  | 0, _ => []
  | fuel + 1, n =>
    if n < 10 then [digitChar n]
    else natDigitsGo fuel (n / 10) ++ [digitChar (n % 10)]

/-- Decimal representation of a natural number. -/
def natRepr (n : ℕ) : String := String.mk (natDigitsGo (n + 1) n)

/-- Deterministic stand-in for Python's float `repr` used in the
fingerprint f-string (app.py:174): the exact digits are immaterial to
every claim (only determinism of the id matters), the canonical `Dec`
makes it well defined, and on the short decimals of these files it
agrees with Python (`4.5` → "4.5", `-35` → "-35.0"). -/
def decRepr (d : Dec) : String :=
  let sign := if d.mant < 0 then "-" else ""
  let ds0 := natDigitsGo (d.mant.natAbs + 1) d.mant.natAbs
  let ds := if ds0.length ≤ d.exp then
              List.replicate (d.exp + 1 - ds0.length) '0' ++ ds0
            else ds0
  if d.exp = 0 then sign ++ String.mk ds ++ ".0"
  else sign ++ String.mk (ds.take (ds.length - d.exp)) ++ "." ++
    String.mk (ds.drop (ds.length - d.exp))

/-- Model of `hashlib.md5(...).hexdigest()`: an external deterministic
digest of which only determinism matters to any claim, modelled as a
deterministic injection of the input string. -/
def md5Model (s : String) : String := s

/-- The amount component of the fingerprint f-string: a missing amount is
the float `NaN`, rendered "nan". -/
def optAmtRepr (a : Option Dec) : String :=
  match a with
  | some q => decRepr q
  | none => "nan"

/-- The name component of the fingerprint f-string (app.py:174):
`row.get('name')` is `None` (rendered "None") when the column is
absent, `NaN` (rendered "nan") when the cell is empty, the text
otherwise. -/
def nameForId (hasName : Bool) (r : Row) : String :=
  if hasName then
    match rowGet r "name" with
    | Cell.na => "nan"
    | Cell.str s => s
    | Cell.num q => decRepr q
  else "None"

/-- The stored `name` value: NULL when the column is absent or the cell
missing. -/
def nameVal (hasName : Bool) (r : Row) : Option String :=
  if hasName then
    match rowGet r "name" with
    | Cell.na => none
    | Cell.str s => some s
    | Cell.num q => some (decRepr q)
  else none

/-- The stored `source` value (always a text cell after either branch). -/
def sourceOf (r : Row) : String :=
  match rowGet r "source" with
  | Cell.str s => s
  | _ => ""

/-- One output record of `clean_bank_file` (app.py:174-185): the id is the
digest of the converted date, the name and the numeric amount; the
category and bucket defaults are filled. -/
def mkTxn (hasName : Bool) (r : Row) (iso : String) (amt : Option Dec) : Txn :=
  { transaction_id := md5Model (iso ++ nameForId hasName r ++ optAmtRepr amt),
    date := iso, name := nameVal hasName r, amount := amt,
    category := "Uncategorized", bucket := "SPEND", source := sourceOf r }

/-- Assemble the output rows and apply `dropna(subset=['date'])`
(app.py:185): rows whose converted date is missing are dropped. -/
def buildTxns (hasName : Bool) : List Row → List (Option String) → List (Option Dec) → List Txn
  | r :: rs, some iso :: ds, a :: amts => mkTxn hasName r iso a :: buildTxns hasName rs ds amts
  | _ :: rs, none :: ds, _ :: amts => buildTxns hasName rs ds amts
  | _, _, _ => []

/-- `if 'amount' not in df.columns: df['amount'] = 0.0` (app.py:164). -/
def fillAmount (f : Frame) : Frame :=
  if f.header.contains "amount" then f
  else setCol "amount" (Cell.num (Dec.make 0 0)) f

/-- The cleanup on one frame: amount fill and coercion first
(app.py:164-169), then the date conversion — where `df['date']` raises
a KeyError when the column is absent — then ids, defaults and the
missing-date drop. -/
def amountStep (r : Row) : Except String (Option Dec) :=
  coerceAmount (rowGet r "amount")

def dateStep (r : Row) : Except String (Option String) :=
  coerceDate (rowGet r "date")

def cleanFrame (f0 : Frame) : Except String (List Txn) :=
  match mapE amountStep (fillAmount f0).rows with
  | Except.error e => Except.error e
  | Except.ok amts =>
    if (fillAmount f0).header.contains "date" then
      match mapE dateStep (fillAmount f0).rows with
      | Except.error e => Except.error e
      | Except.ok dates =>
        Except.ok (buildTxns ((fillAmount f0).header.contains "name")
          (fillAmount f0).rows dates amts)
    else Except.error "KeyError: date"

def cleanTail (ef : Except String Frame) : Except String (List Txn) :=
  match ef with
  | Except.error e => Except.error e
  | Except.ok f0 => cleanFrame f0

/-- An uploaded file, after the lowercased-filename suffix dispatch of
app.py:129/157: a CSV parsed into a frame, or a PDF reduced to its
extracted page texts together with the fallback year taken from the
filename. -/
inductive Upload where
  | csvFile (f : Frame)
  | pdfFile (pages : List String) (defaultYear : String)

/-- The frame `pd.DataFrame(transactions)` built by `process_chime_pdf`
(app.py:118-121); an empty result still carries the four canonical
columns. -/
def rawToRow (t : RawTx) : Row :=
  [("date", Cell.str t.date), ("name", Cell.str t.name),
   ("amount", Cell.num t.amount), ("source", Cell.str t.source)]

/-- The data frame returned by `process_chime_pdf`. -/
def rawFrame (ts : List RawTx) : Frame :=
  { header := ["date", "name", "amount", "source"], rows := ts.map rawToRow }

/-- `clean_bank_file` (app.py:123-189): CSV inputs get header
normalization, the per-bank adaptation and the source column; Chime
PDF inputs go through the statement parser; both then share the
cleanup; any other combination aborts (`st.error` + `st.stop`). -/
def clean_bank_file (bank : String) (u : Upload) : Except String (List Txn) :=
  match u with
  | Upload.csvFile f => cleanTail (bankPrep bank (normFrame f))
  | Upload.pdfFile pages y =>
    if bank = "Chime" then cleanTail (Except.ok (rawFrame (process_chime_pdf y pages)))
    else Except.error "Unsupported file type"

/-- Whether an ingestion attempt succeeded. -/
def isOkE {α : Type} (e : Except String α) : Bool :=
  match e with
  | Except.ok _ => true
  | Except.error _ => false

theorem containsAppend (l m : List String) (b : String) :
    (l ++ m).contains b = (l.contains b || m.contains b) := by
  induction l with
  | nil => simp
  | cons x xs ih => simp [List.contains_cons, ih, Bool.or_assoc]

theorem rowGet_setKey_self (r : Row) (c : String) (v : Cell) :
    rowGet (setKey r c v) c = v := by
  unfold setKey
  induction r with
  | nil => simp [rowGet]
  | cons p ps ih =>
      obtain ⟨k, w⟩ := p
      by_cases hp : k = c <;> simp [List.filter_cons, hp, rowGet, ih]

theorem rowGet_setKey_ne (r : Row) (c c' : String) (v : Cell) (h : c ≠ c') :
    rowGet (setKey r c v) c' = rowGet r c' := by
  unfold setKey
  induction r with
  | nil => simp [rowGet, h]
  | cons p ps ih =>
      obtain ⟨k, w⟩ := p
      by_cases hp : k = c
      · simp [List.filter_cons, hp, rowGet, ih, h]
      · by_cases hq : k = c' <;>
          simp [List.filter_cons, hp, hq, rowGet, ih, Ne.symm h]

theorem fillAmount_contains (g : Frame) (c : String) (hc : c ≠ "amount") :
    (fillAmount g).header.contains c = g.header.contains c := by
  unfold fillAmount
  split
  · rfl
  · show (setCol "amount" (Cell.num (Dec.make 0 0)) g).header.contains c
        = g.header.contains c
    unfold setCol
    show (if g.header.contains "amount" then g.header
          else g.header ++ ["amount"]).contains c = g.header.contains c
    split
    · rfl
    · rw [containsAppend]
      have : ([("amount" : String)]).contains c = false := by
        simp [List.contains_cons]
        intro hc2
        exact hc hc2
      rw [this, Bool.or_false]

theorem fillAmount_rowGet_date (g : Frame) :
    (fillAmount g).rows.map (fun r => rowGet r "date")
      = g.rows.map (fun r => rowGet r "date") := by
  unfold fillAmount
  split
  · rfl
  · show (g.rows.map (fun r => setKey r "amount" (Cell.num (Dec.make 0 0)))).map
        (fun r => rowGet r "date") = _
    rw [List.map_map]
    exact List.map_congr_left (fun r _ =>
      rowGet_setKey_ne r "amount" "date" _ (by decide))

theorem mapE_ok_of_forall {α β : Type} (f : α → Except String β) (gf : α → β) :
    ∀ l : List α, (∀ x ∈ l, f x = Except.ok (gf x)) →
      mapE f l = Except.ok (l.map gf) := by
  intro l
  induction l with
  | nil => intro _; rfl
  | cons x xs ih =>
      intro h
      show (match f x with
        | Except.error e => Except.error e
        | Except.ok y =>
          match mapE f xs with
          | Except.error e => Except.error e
          | Except.ok ys => Except.ok (y :: ys)) = _
      rw [h x (List.mem_cons_self x xs), ih (fun u hu => h u (List.mem_cons_of_mem _ hu))]
      rfl

theorem mapE_length {α β : Type} (f : α → Except String β) :
    ∀ (l : List α) (out : List β), mapE f l = Except.ok out → out.length = l.length := by
  intro l
  induction l with
  | nil =>
      intro out h
      cases h
      rfl
  | cons x xs ih =>
      intro out h
      unfold mapE at h
      cases hf : f x with
      | error e => rw [hf] at h; exact Except.noConfusion h
      | ok y =>
          rw [hf] at h
          cases hm : mapE f xs with
          | error e => rw [hm] at h; exact Except.noConfusion h
          | ok ys =>
              rw [hm] at h
              cases h
              simp [ih ys hm]


theorem mapE_cons {α β : Type} (f : α → Except String β) (x : α) (xs : List α) :
    mapE f (x :: xs) =
      match f x with
      | Except.error e => Except.error e
      | Except.ok y =>
        match mapE f xs with
        | Except.error e => Except.error e
        | Except.ok ys => Except.ok (y :: ys) := rfl

theorem coerceDate_na : coerceDate Cell.na = Except.ok none := rfl

theorem coerceDate_num (q : Dec) :
    coerceDate (Cell.num q) = Except.error "unmodelled numeric date column" := rfl

theorem coerceDate_str (s : String) :
    coerceDate (Cell.str s) =
      match parseDate s with
      | some iso => Except.ok (some iso)
      | none => Except.error "DateParseError: unable to parse date" := rfl

/-- A row whose date cell is present but unparseable (raising in the
conversion). -/
def badDateRow (r : Row) : Bool :=
  match rowGet r "date" with
  | Cell.str s => (parseDate s).isNone
  | Cell.num _ => true
  | Cell.na => false

/-- A row whose date cell converts without raising. -/
def goodDateRow (r : Row) : Bool :=
  match rowGet r "date" with
  | Cell.na => true
  | Cell.str s => (parseDate s).isSome
  | Cell.num _ => false

theorem mapE_dates_error : ∀ rows : List Row, rows.any badDateRow = true →
    ∃ e, mapE dateStep rows = Except.error e := by
  intro rows
  induction rows with
  | nil => intro h; exact absurd h (by simp)
  | cons r rs ih =>
      intro h
      rw [mapE_cons]
      cases hf : dateStep r with
      | error e => exact ⟨e, rfl⟩
      | ok d =>
          have hbr : badDateRow r = false := by
            unfold dateStep at hf
            unfold badDateRow
            cases hc : rowGet r "date" with
            | na => rfl
            | num q =>
                rw [hc, coerceDate_num] at hf
                exact Except.noConfusion hf
            | str s =>
                rw [hc, coerceDate_str] at hf
                show (parseDate s).isNone = false
                cases hp : parseDate s with
                | some iso => rfl
                | none =>
                    rw [hp] at hf
                    exact Except.noConfusion hf
          have hrs : rs.any badDateRow = true := by
            rw [List.any_cons, hbr] at h
            simpa using h
          obtain ⟨e, he⟩ := ih hrs
          exact ⟨e, by rw [he]⟩

theorem mapE_dates_ok : ∀ rows : List Row, rows.all goodDateRow = true →
    ∃ dates, mapE dateStep rows = Except.ok dates := by
  intro rows
  induction rows with
  | nil => intro _; exact ⟨[], rfl⟩
  | cons r rs ih =>
      intro h
      rw [List.all_cons] at h
      obtain ⟨h1, h2⟩ := Bool.and_eq_true_iff.mp h
      obtain ⟨ds, hds⟩ := ih h2
      have hf : ∃ d, dateStep r = Except.ok d := by
        unfold dateStep
        unfold goodDateRow at h1
        cases hc : rowGet r "date" with
        | na => exact ⟨none, rfl⟩
        | num q => rw [hc] at h1; simp at h1
        | str s =>
            rw [hc] at h1
            have h1x : (parseDate s).isSome = true := h1
            cases hp : parseDate s with
            | none => rw [hp] at h1x; simp at h1x
            | some iso => exact ⟨some iso, by rw [coerceDate_str, hp]⟩
      obtain ⟨d, hd⟩ := hf
      refine ⟨d :: ds, ?_⟩
      rw [mapE_cons, hd, hds]

/-- The converted date of a row, `none` when missing or unparseable. -/
def dateVal (r : Row) : Option String :=
  match rowGet r "date" with
  | Cell.str s => parseDate s
  | _ => none

theorem mapE_dates_filterMap : ∀ (rows : List Row) (dates : List (Option String)),
    mapE dateStep rows = Except.ok dates →
    dates.filterMap id = rows.filterMap dateVal := by
  intro rows
  induction rows with
  | nil =>
      intro dates h
      cases h
      rfl
  | cons r rs ih =>
      intro dates h
      rw [mapE_cons] at h
      cases hf : dateStep r with
      | error e => rw [hf] at h; exact Except.noConfusion h
      | ok d =>
          rw [hf] at h
          cases hm : mapE dateStep rs with
          | error e => rw [hm] at h; exact Except.noConfusion h
          | ok ds =>
              rw [hm] at h
              cases h
              unfold dateStep at hf
              cases hc : rowGet r "date" with
              | na =>
                  rw [hc, coerceDate_na] at hf
                  cases hf
                  have hdv : dateVal r = none := by
                    unfold dateVal
                    rw [hc]
                  rw [List.filterMap_cons, List.filterMap_cons, hdv]
                  show List.filterMap id ds = List.filterMap dateVal rs
                  exact ih ds hm
              | num q =>
                  rw [hc, coerceDate_num] at hf
                  exact Except.noConfusion hf
              | str s =>
                  rw [hc, coerceDate_str] at hf
                  cases hp : parseDate s with
                  | none => rw [hp] at hf; exact Except.noConfusion hf
                  | some iso =>
                      rw [hp] at hf
                      cases hf
                      have hdv : dateVal r = some iso := by
                        unfold dateVal
                        rw [hc]
                        exact hp
                      rw [List.filterMap_cons, List.filterMap_cons, hdv]
                      show iso :: List.filterMap id ds = iso :: List.filterMap dateVal rs
                      rw [ih ds hm]

theorem buildTxns_map_date : ∀ (hn : Bool) (rows : List Row)
    (dates : List (Option String)) (amts : List (Option Dec)),
    rows.length = dates.length → dates.length = amts.length →
    (buildTxns hn rows dates amts).map Txn.date = dates.filterMap id := by
  intro hn rows
  induction rows with
  | nil =>
      intro dates amts h1 h2
      cases dates with
      | nil => rfl
      | cons d ds => simp at h1
  | cons r rs ih =>
      intro dates amts h1 h2
      cases dates with
      | nil => simp at h1
      | cons d ds =>
          cases amts with
          | nil => simp at h2
          | cons a amts2 =>
              cases d with
              | some iso =>
                  show (mkTxn hn r iso a :: buildTxns hn rs ds amts2).map Txn.date
                    = List.filterMap id (some iso :: ds)
                  rw [List.map_cons, List.filterMap_cons]
                  show iso :: (buildTxns hn rs ds amts2).map Txn.date
                    = iso :: List.filterMap id ds
                  rw [ih ds amts2 (by simpa using h1) (by simpa using h2)]
              | none =>
                  show (buildTxns hn rs ds amts2).map Txn.date
                    = List.filterMap id (none :: ds)
                  rw [List.filterMap_cons]
                  show _ = List.filterMap id ds
                  exact ih ds amts2 (by simpa using h1) (by simpa using h2)

theorem buildTxns_amount_mem : ∀ (hn : Bool) (rows : List Row)
    (dates : List (Option String)) (amts : List (Option Dec)) (t : Txn),
    t ∈ buildTxns hn rows dates amts → t.amount ∈ amts := by
  intro hn rows
  induction rows with
  | nil =>
      intro dates amts t ht
      have he : buildTxns hn [] dates amts = [] := by
        cases dates <;> cases amts <;> rfl
      rw [he] at ht
      cases ht
  | cons r rs ih =>
      intro dates amts t ht
      cases dates with
      | nil =>
          have he : buildTxns hn (r :: rs) [] amts = [] := by cases amts <;> rfl
          rw [he] at ht
          cases ht
      | cons d ds =>
          cases amts with
          | nil =>
              have he : buildTxns hn (r :: rs) (d :: ds) [] = [] := by cases d <;> rfl
              rw [he] at ht
              cases ht
          | cons a amts2 =>
              cases d with
              | some iso =>
                  have he : buildTxns hn (r :: rs) (some iso :: ds) (a :: amts2)
                      = mkTxn hn r iso a :: buildTxns hn rs ds amts2 := rfl
                  rw [he] at ht
                  rcases List.mem_cons.mp ht with rfl | ht2
                  · exact List.mem_cons_self a amts2
                  · exact List.mem_cons_of_mem a (ih ds amts2 t ht2)
              | none =>
                  have he : buildTxns hn (r :: rs) (none :: ds) (a :: amts2)
                      = buildTxns hn rs ds amts2 := rfl
                  rw [he] at ht
                  exact List.mem_cons_of_mem a (ih ds amts2 t ht)

theorem setCol_rows (c : String) (v : Cell) (f : Frame) :
    (setCol c v f).rows = f.rows.map (fun r => setKey r c v) := rfl

/-- The date column is absent after header normalization and the per-bank
aliasing (or the adaptation itself raised). -/
def dateAbsentAfterPrep (bank : String) (f : Frame) : Bool :=
  match bankPrep bank (normFrame f) with
  | Except.ok g => !(g.header.contains "date")
  | Except.error _ => true

/-- Some row's date cell is present but unparseable after adaptation (or
the adaptation itself raised). -/
def badDateAfterPrep (bank : String) (f : Frame) : Bool :=
  match bankPrep bank (normFrame f) with
  | Except.error _ => true
  | Except.ok g => (fillAmount g).rows.any badDateRow

/-- No amount column exists after source-specific adaptation (so no
debit/credit derivation applied either — Citi always produces one). -/
def amountAbsentAfterPrep (bank : String) (f : Frame) : Bool :=
  match bankPrep bank (normFrame f) with
  | Except.ok g => !(g.header.contains "amount")
  | Except.error _ => false

/-- The date column exists after adaptation and every date cell converts
without raising. -/
def datesOkAfterPrep (bank : String) (f : Frame) : Bool :=
  match bankPrep bank (normFrame f) with
  | Except.ok g =>
      (fillAmount g).header.contains "date" && (fillAmount g).rows.all goodDateRow
  | Except.error _ => false

theorem cleanFrame_amount_error (g : Frame) (e : String)
    (hm : mapE amountStep (fillAmount g).rows = Except.error e) :
    cleanFrame g = Except.error e := by
  unfold cleanFrame
  rw [hm]

theorem cleanFrame_noDate (g : Frame) (amts : List (Option Dec))
    (hm : mapE amountStep (fillAmount g).rows = Except.ok amts)
    (hd2 : (fillAmount g).header.contains "date" = false) :
    cleanFrame g = Except.error "KeyError: date" := by
  unfold cleanFrame
  rw [hm, hd2]
  rfl

theorem cleanFrame_date_error (g : Frame) (amts : List (Option Dec)) (e : String)
    (hm : mapE amountStep (fillAmount g).rows = Except.ok amts)
    (hcd : (fillAmount g).header.contains "date" = true)
    (hd : mapE dateStep (fillAmount g).rows = Except.error e) :
    cleanFrame g = Except.error e := by
  unfold cleanFrame
  rw [hm, hcd, hd]
  rfl

theorem cleanFrame_eq_ok (g : Frame) (amts : List (Option Dec))
    (dates : List (Option String))
    (hm : mapE amountStep (fillAmount g).rows = Except.ok amts)
    (hcd : (fillAmount g).header.contains "date" = true)
    (hd : mapE dateStep (fillAmount g).rows = Except.ok dates) :
    cleanFrame g = Except.ok (buildTxns ((fillAmount g).header.contains "name")
      (fillAmount g).rows dates amts) := by
  unfold cleanFrame
  rw [hm, hcd, hd]
  rfl

theorem cleanFrame_ok_inv (g : Frame) (txns : List Txn)
    (h : cleanFrame g = Except.ok txns) :
    ∃ amts dates, mapE amountStep (fillAmount g).rows = Except.ok amts ∧
      (fillAmount g).header.contains "date" = true ∧
      mapE dateStep (fillAmount g).rows = Except.ok dates ∧
      txns = buildTxns ((fillAmount g).header.contains "name")
        (fillAmount g).rows dates amts := by
  cases hm : mapE amountStep (fillAmount g).rows with
  | error e =>
      rw [cleanFrame_amount_error g e hm] at h
      exact Except.noConfusion h
  | ok amts =>
      cases hcd : (fillAmount g).header.contains "date" with
      | false =>
          rw [cleanFrame_noDate g amts hm hcd] at h
          exact Except.noConfusion h
      | true =>
          cases hd : mapE dateStep (fillAmount g).rows with
          | error e =>
              rw [cleanFrame_date_error g amts e hm hcd hd] at h
              exact Except.noConfusion h
          | ok dates =>
              rw [cleanFrame_eq_ok g amts dates hm hcd hd] at h
              exact ⟨amts, dates, rfl, rfl, rfl, (Except.ok.inj h).symm⟩

theorem cleanFrame_isOk_false_of_noDate (g : Frame)
    (hd2 : (fillAmount g).header.contains "date" = false) :
    isOkE (cleanFrame g) = false := by
  cases hm : mapE amountStep (fillAmount g).rows with
  | error e => rw [cleanFrame_amount_error g e hm]; rfl
  | ok amts => rw [cleanFrame_noDate g amts hm hd2]; rfl

theorem cleanFrame_isOk_false_of_badDate (g : Frame)
    (h : (fillAmount g).rows.any badDateRow = true) :
    isOkE (cleanFrame g) = false := by
  cases hm : mapE amountStep (fillAmount g).rows with
  | error e => rw [cleanFrame_amount_error g e hm]; rfl
  | ok amts =>
      cases hcd : (fillAmount g).header.contains "date" with
      | false => rw [cleanFrame_noDate g amts hm hcd]; rfl
      | true =>
          obtain ⟨e, he⟩ := mapE_dates_error _ h
          rw [cleanFrame_date_error g amts e hm hcd he]
          rfl

def c6frame : Frame :=
  { header := ["Date"], rows := [[("Date", Cell.str "2024-01-05")]] }

/-- Claim C6 counterexample: a tabular file whose only column is the date
— so both required canonical fields `amount` and `name` are absent
after aliasing — is ingested without any error: `clean_bank_file`
fills the amount with 0.0 and the name with null and returns a record,
instead of failing with a schema error naming the missing field and
listing the headers. -/
theorem missing_fields_not_fatal :
    (normFrame c6frame).header.contains "amount" = false ∧
    (normFrame c6frame).header.contains "name" = false ∧
    clean_bank_file "Chase" (Upload.csvFile c6frame) =
      Except.ok [{ transaction_id := "2024-01-05None0.0", date := "2024-01-05",
                   name := none, amount := some (Dec.make 0 0),
                   category := "Uncategorized", bucket := "SPEND",
                   source := "Chase" }] :=
  ⟨rfl, rfl, rfl⟩

def c6okframe : Frame :=
  { header := ["DATE"], rows := [[("DATE", Cell.str "2024-02-03")]] }

/-- Claim C6 (amended): of the canonical fields only a missing `date`
aborts ingestion — for every tabular input whose date field is absent
after aliasing, `clean_bank_file` fails and nothing from the file is
imported (with the library's KeyError text rather than a schema error
listing the headers present); a file missing `amount` and `name` but
carrying a date is ingested successfully. -/
theorem missing_date_aborts_file :
    (∀ (bank : String) (f : Frame), dateAbsentAfterPrep bank f = true →
      isOkE (clean_bank_file bank (Upload.csvFile f)) = false) ∧
    ((normFrame c6okframe).header = ["date"] ∧
      isOkE (clean_bank_file "Chase" (Upload.csvFile c6okframe)) = true) := by
  refine ⟨?_, rfl, rfl⟩
  intro bank f h
  show isOkE (cleanTail (bankPrep bank (normFrame f))) = false
  unfold dateAbsentAfterPrep at h
  cases hp : bankPrep bank (normFrame f) with
  | error e => rfl
  | ok g =>
      rw [hp] at h
      have h2 : (!(g.header.contains "date")) = true := h
      have hdate : g.header.contains "date" = false := by
        cases hb : g.header.contains "date"
        · rfl
        · rw [hb] at h2; simp at h2
      show isOkE (cleanFrame g) = false
      exact cleanFrame_isOk_false_of_noDate g
        (by rw [fillAmount_contains g "date" (by decide)]; exact hdate)

def c6wframe : Frame :=
  { header := ["Description"], rows := [[("Description", Cell.str "X")]] }

theorem missing_date_aborts_file_witness :
    dateAbsentAfterPrep "Chase" c6wframe = true ∧
    isOkE (clean_bank_file "Chase" (Upload.csvFile c6wframe)) = false :=
  ⟨rfl, missing_date_aborts_file.1 "Chase" c6wframe (by rfl)⟩

def c7frame : Frame :=
  { header := ["date", "amount"],
    rows := [[("date", Cell.str "2024-01-05"), ("amount", Cell.str "1.00")],
             [("date", Cell.str "notadate"), ("amount", Cell.str "2.00")]] }

/-- Claim C7 counterexample: a two-row file whose second row carries the
unparseable date text "notadate" (the first row's date is fine) is NOT
partially accepted: the date conversion raises (`pd.to_datetime`
defaults to `errors='raise'`), the handler aborts the whole file, and
nothing — the valid first row included — is returned. -/
theorem unparseable_date_aborts_file :
    parseDate "2024-01-05" = some "2024-01-05" ∧
    parseDate "notadate" = none ∧
    isOkE (clean_bank_file "Chase" (Upload.csvFile c7frame)) = false :=
  ⟨rfl, rfl, rfl⟩

/-- Claim C7 (amended): the hard-filter behaviour applies only to rows
whose date cell is MISSING: a successful ingestion returns exactly the
rows whose converted date is present, in order, while a row whose date
text is present but unparseable makes the conversion raise and aborts
the whole file — the partial file is not accepted. -/
theorem missing_dates_dropped :
    (∀ (bank : String) (f : Frame), badDateAfterPrep bank f = true →
      isOkE (clean_bank_file bank (Upload.csvFile f)) = false) ∧
    (∀ (bank : String) (f g : Frame) (txns : List Txn),
      bankPrep bank (normFrame f) = Except.ok g →
      clean_bank_file bank (Upload.csvFile f) = Except.ok txns →
      txns.map Txn.date = (fillAmount g).rows.filterMap dateVal) := by
  constructor
  · intro bank f h
    show isOkE (cleanTail (bankPrep bank (normFrame f))) = false
    unfold badDateAfterPrep at h
    cases hp : bankPrep bank (normFrame f) with
    | error e => rfl
    | ok g =>
        rw [hp] at h
        have h2 : (fillAmount g).rows.any badDateRow = true := h
        show isOkE (cleanFrame g) = false
        exact cleanFrame_isOk_false_of_badDate g h2
  · intro bank f g txns hprep hok
    have h1 : cleanFrame g = Except.ok txns := by
      have hdef : clean_bank_file bank (Upload.csvFile f)
          = cleanTail (bankPrep bank (normFrame f)) := rfl
      rw [hdef, hprep] at hok
      exact hok
    obtain ⟨amts, dates, hm, hcd, hd, htx⟩ := cleanFrame_ok_inv g txns h1
    subst htx
    have len1 : (fillAmount g).rows.length = dates.length :=
      (mapE_length dateStep _ dates hd).symm
    have len2 : dates.length = amts.length := by
      rw [mapE_length dateStep _ dates hd, mapE_length amountStep _ amts hm]
    rw [buildTxns_map_date _ _ _ _ len1 len2, mapE_dates_filterMap _ dates hd]

def c7wbad : Frame :=
  { header := ["date"], rows := [[("date", Cell.str "soon")]] }

def c7wgood : Frame :=
  { header := ["date"],
    rows := [[("date", Cell.na)], [("date", Cell.str "2024-01-05")]] }

def c7wg : Frame :=
  { header := ["date", "source"],
    rows := [[("date", Cell.na), ("source", Cell.str "Chase")],
             [("date", Cell.str "2024-01-05"), ("source", Cell.str "Chase")]] }

def c7wtxn : Txn :=
  { transaction_id := "2024-01-05None0.0", date := "2024-01-05", name := none,
    amount := some (Dec.make 0 0), category := "Uncategorized", bucket := "SPEND",
    source := "Chase" }

theorem missing_dates_dropped_witness :
    isOkE (clean_bank_file "Chase" (Upload.csvFile c7wbad)) = false ∧
    [c7wtxn].map Txn.date = (fillAmount c7wg).rows.filterMap dateVal :=
  ⟨missing_dates_dropped.1 "Chase" c7wbad (by rfl),
   missing_dates_dropped.2 "Chase" c7wgood c7wg [c7wtxn] (by rfl) (by rfl)⟩

def c10frame : Frame :=
  { header := ["date", "description"],
    rows := [[("date", Cell.str "notadate"), ("description", Cell.str "COFFEE")]] }

/-- Claim C10 counterexample: a tabular file with no amount column after
adaptation can still fail to ingest — this one satisfies the claim's
premise (no amount column exists after the Sofi adaptation, and no
debit/credit derivation applies), yet its unparseable date text makes
the date conversion raise at app.py:171 and the handler at
app.py:187-189 aborts the whole file, so ingestion does fail and
nothing proceeds to insertion. -/
theorem missing_amount_file_can_fail :
    amountAbsentAfterPrep "Sofi" c10frame = true ∧
    isOkE (clean_bank_file "Sofi" (Upload.csvFile c10frame)) = false :=
  ⟨rfl, rfl⟩

/-- Claim C10 (amended): a missing amount column is not itself a failure —
for every tabular file with no amount column after source-specific
adaptation (hence no debit/credit derivation either — Citi always
produces an amount column) whose dates convert (the date column is
present and every date cell parses, the condition any file needs to
proceed at all), ingestion succeeds: `clean_bank_file` assigns the
float 0.0 to every row and the file proceeds through normalization
with every stored amount equal to 0. -/
theorem missing_amount_defaults_zero :
    ∀ (bank : String) (f : Frame),
      amountAbsentAfterPrep bank f = true →
      datesOkAfterPrep bank f = true →
      ∃ txns, clean_bank_file bank (Upload.csvFile f) = Except.ok txns ∧
        ∀ t ∈ txns, t.amount = some (Dec.make 0 0) := by
  intro bank f ha hd
  unfold amountAbsentAfterPrep at ha
  unfold datesOkAfterPrep at hd
  cases hp : bankPrep bank (normFrame f) with
  | error e =>
      rw [hp] at ha
      have ha2 : false = true := ha
      exact absurd ha2 (by decide)
  | ok g =>
      rw [hp] at ha hd
      have ha2 : (!(g.header.contains "amount")) = true := ha
      have hd2 : ((fillAmount g).header.contains "date" &&
        (fillAmount g).rows.all goodDateRow) = true := hd
      have hga : g.header.contains "amount" = false := by
        cases hx : g.header.contains "amount"
        · rfl
        · rw [hx] at ha2; simp at ha2
      have hfa : fillAmount g = setCol "amount" (Cell.num (Dec.make 0 0)) g := by
        unfold fillAmount
        rw [hga]
        rfl
      obtain ⟨hcd, hall⟩ := Bool.and_eq_true_iff.mp hd2
      have hamt : mapE amountStep (fillAmount g).rows
          = Except.ok ((fillAmount g).rows.map (fun _ => some (Dec.make 0 0))) := by
        apply mapE_ok_of_forall
        intro r hr
        rw [hfa, setCol_rows] at hr
        obtain ⟨r0, hr0, rfl⟩ := List.mem_map.mp hr
        unfold amountStep
        rw [rowGet_setKey_self]
        rfl
      obtain ⟨dates, hdates⟩ := mapE_dates_ok (fillAmount g).rows hall
      refine ⟨buildTxns ((fillAmount g).header.contains "name") (fillAmount g).rows dates
        ((fillAmount g).rows.map (fun _ => some (Dec.make 0 0))), ?_, ?_⟩
      · show cleanTail (bankPrep bank (normFrame f)) = _
        rw [hp]
        show cleanFrame g = _
        exact cleanFrame_eq_ok g _ dates hamt hcd hdates
      · intro t ht
        have hmem := buildTxns_amount_mem _ _ _ _ t ht
        obtain ⟨r0, _, h0⟩ := List.mem_map.mp hmem
        exact h0.symm

def c10wframe : Frame :=
  { header := ["date", "description"],
    rows := [[("date", Cell.str "2024-03-04"), ("description", Cell.str "ZERO DAY")]] }

theorem missing_amount_defaults_zero_witness :
    ∃ txns, clean_bank_file "Sofi" (Upload.csvFile c10wframe) = Except.ok txns ∧
      ∀ t ∈ txns, t.amount = some (Dec.make 0 0) :=
  missing_amount_defaults_zero "Sofi" c10wframe (by rfl) (by rfl)
